import Mathlib

/-!
Verification development for the crawl-and-extract engine of Surf_Crawl
(src/Crawl.py, class WebScraper).

The HTML document tree produced by BeautifulSoup is modelled by the mutual
inductives Node and NodeList (an element node carries its tag name, its
class list, its remaining attributes and its children; a text node carries
its string).  The network is modelled by a Network value: fetch returns
either a parsed document or an error string (standing for any requests or
parsing exception, including non-success HTTP statuses raised by
raise_for_status), and robotsAllows returns the robots verdict, with none
standing for any exception while retrieving or parsing robots.txt.

Each WebScraper method is translated into a Lean function of the same name.
Python while-loops become structural recursion; the keyword-search loop is
split into nextPage (the consecutive loop iterations that do not increment
pages_crawled: visited or too-deep entries, and failed fetches) and
searchRun (one round per successful fetch, fuelled by the remaining page
budget), which together implement exactly the source loop.
-/

/-! ## The document tree (BeautifulSoup model) -/

mutual
inductive Node where
  | text (s : String)
  | elem (tag : String) (classes : List String) (attrs : List (String × String)) (children : NodeList)
inductive NodeList where
  | nil
  | cons (n : Node) (ns : NodeList)
end

/-- Parsed documents: a BeautifulSoup object is the forest of top-level nodes. -/
abbrev Doc := NodeList

/-- Builds a NodeList from an ordinary list, for writing concrete documents. -/
def NodeList.ofList : List Node → NodeList
  | [] => .nil
  | n :: ns => .cons n (NodeList.ofList ns)

/-- Tag name of a node (text nodes have no tag; they never match a name search). -/
def nodeTag : Node → String
  | .text _ => ""
  | .elem t _ _ _ => t

/-- Class list of a node, as stored in the multi-valued class attribute. -/
def nodeClasses : Node → List String
  | .text _ => []
  | .elem _ cs _ _ => cs

/-- Attribute access, element.get(a): the value of attribute a, if present. -/
def getAttr : Node → String → Option String
  | .text _, _ => none
  | .elem _ _ ats _, a => ats.lookup a

mutual
/-- Element nodes of the subtree rooted at a node, in document order, each
paired with its ancestor chain (nearest ancestor first); anc is the chain of
ancestors of the node itself. -/
def nodeElems (anc : List Node) : Node → List (Node × List Node)
  | .text _ => []
  | .elem t cs ats ch =>
      (Node.elem t cs ats ch, anc) :: listElems (Node.elem t cs ats ch :: anc) ch
/-- Element nodes of a forest in document order, with ancestor chains. -/
def listElems (anc : List Node) : NodeList → List (Node × List Node)
  | .nil => []
  | .cons n ns => nodeElems anc n ++ listElems anc ns
end

mutual
/-- The strings of the text nodes below a node, in document order. -/
def nodeText : Node → List String
  | .text s => [s]
  | .elem _ _ _ ch => listText ch
/-- The strings of the text nodes of a forest, in document order. -/
def listText : NodeList → List String
  | .nil => []
  | .cons n ns => nodeText n ++ listText ns
end

/-- Python str.strip(): whitespace removed from both ends. -/
def pyStrip (s : String) : String :=
  String.mk (((s.data.dropWhile Char.isWhitespace).reverse.dropWhile Char.isWhitespace).reverse)

/-- Python str.lower(). -/
def pyLower (s : String) : String :=
  String.mk (s.data.map Char.toLower)

/-- Python slicing s[:n]: at most the first n characters. -/
def pyTake (s : String) (n : Nat) : String :=
  String.mk (s.data.take n)

/-- Concatenation of a list of strings. -/
def joinAll : List String → String
  | [] => ""
  | s :: rest => s ++ joinAll rest

/-- Python sep.join(ss). -/
def joinSep (sep : String) : List String → String
  | [] => ""
  | [s] => s
  | s :: rest => s ++ sep ++ joinSep sep rest

/-- Element get_text(strip=True): every string stripped, concatenated. -/
def getTextStrip (n : Node) : String :=
  joinAll ((nodeText n).map pyStrip)

/-- Element get_text() with no arguments: the raw strings concatenated. -/
def getTextRaw (n : Node) : String :=
  joinAll (nodeText n)

/-- Document get_text(separator=space, strip=True): strings stripped, those
that become empty dropped, the rest joined by single spaces. -/
def docTextSpace (d : Doc) : String :=
  joinSep " " (((listText d).map pyStrip).filter (fun s => s != ""))

/-- Descendant element nodes of a node, in document order. -/
def descendants (n : Node) : List Node :=
  match n with
  | .text _ => []
  | .elem _ _ _ ch => (listElems [] ch).map Prod.fst

/-- BeautifulSoup element.find with a list of names: the first descendant
whose tag name is in the list.  Entries such as ".author" are tag names to
BeautifulSoup, not CSS selectors, so they match no ordinary element. -/
def findFirst (names : List String) (n : Node) : Option Node :=
  (descendants n).find? (fun d => names.contains (nodeTag d))

/-- Document soup.find_all(a-tag, href=True): the href values of all anchor
elements carrying an href attribute, in document order. -/
def docAnchors (d : Doc) : List String :=
  (listElems [] d).filterMap (fun p => if nodeTag p.1 == "a" then getAttr p.1 "href" else none)

/-! ## CSS selectors

The candidate selectors of the four profiles use four selector forms: a bare
tag name, a class selector, an attribute-presence selector and a
tag-with-attribute-substring selector.  soup.select(sel) returns the
matching elements of the document in document order. -/

inductive Selector where
  | tag (t : String)
  | cls (c : String)
  | attrPresent (a : String)
  | tagAttrContains (t a sub : String)

/-- Occurrence test used by the substring attribute selector. -/
def beginsWith : List Char → List Char → Bool
  | [], _ => true
  | _ :: _, [] => false
  | c :: cs, d :: ds => c == d && beginsWith cs ds

/-- Count of non-overlapping occurrences of pat in t, scanning left to
right, as computed by the Python str.count method (character counts; an
empty pattern occurs length-plus-one times). -/
def countGo (pat : List Char) : Nat → List Char → Nat
  | _, [] => 0
  | k + 1, _ :: cs => countGo pat k cs
  | 0, c :: cs =>
      if beginsWith pat (c :: cs) then 1 + countGo pat (pat.length - 1) cs
      else countGo pat 0 cs

/-- Python t.count(pat). -/
def strCount (t pat : String) : Nat :=
  if pat = "" then t.length + 1 else countGo pat.toList 0 t.toList

/-- Attribute value as seen by selector matching: the class attribute is the
space-joined class list, any other attribute is read from the attribute
list. -/
def attrValueFor : Node → String → Option String
  | .text _, _ => none
  | .elem _ cs ats _, a =>
      if a = "class" then (if cs.isEmpty then none else some (joinSep " " cs))
      else ats.lookup a

/-- Whether one element matches a selector. -/
def selMatches : Selector → Node → Bool
  | .tag t, n => nodeTag n == t
  | .cls c, n => (nodeClasses n).contains c
  | .attrPresent a, n => (attrValueFor n a).isSome
  | .tagAttrContains t a sub, n =>
      nodeTag n == t &&
      (match attrValueFor n a with
       | some v => decide (0 < strCount v sub)
       | none => false)

/-- soup.select(sel): matching elements in document order, each with its
ancestor chain. -/
def select (d : Doc) (s : Selector) : List (Node × List Node) :=
  (listElems [] d).filter (fun p => selMatches s p.1)

/-- The candidate loop shared by all four profiles: try each selector in
order and commit to the first one that matches at least one element;
an empty list when no candidate matches. -/
def firstMatch (soup : Doc) : List Selector → List (Node × List Node)
  | [] => []
  | s :: rest =>
      let found := select soup s
      if found.isEmpty then firstMatch soup rest else found

/-! ## URLs -/

/-- Scheme extraction as by urllib.parse.urlparse: the lowercased part
before the first colon when it is a nonempty run of scheme characters
starting with a letter, and the empty string otherwise. -/
def schemeOf (u : String) : String :=
  let pre := u.data.takeWhile (fun c => c != ':')
  if pre.length = u.data.length then ""
  else
    match pre with
    | [] => ""
    | c :: _ =>
        if c.isAlpha && pre.all (fun d => d.isAlphanum || d == '+' || d == '-' || d == '.')
        then String.mk (pre.map Char.toLower) else ""

/-- Splits a character list at the first occurrence of the separator, when
it occurs. -/
def breakAt (sep : List Char) : List Char → Option (List Char × List Char)
  | [] => none
  | c :: cs =>
      if beginsWith sep (c :: cs) then some ([], (c :: cs).drop sep.length)
      else
        match breakAt sep cs with
        | some (b, a) => some (c :: b, a)
        | none => none

/-- Scheme and host part of a URL, up to the end of the authority. -/
def hostRoot (base : String) : String :=
  match breakAt "://".data base.data with
  | some (s, r) => String.mk s ++ "://" ++ String.mk (r.takeWhile (fun c => c != '/'))
  | none => String.mk (base.data.takeWhile (fun c => c != '/'))

/-- A URL truncated to the directory of its path. -/
def hostDir (base : String) : String :=
  match breakAt "://".data base.data with
  | some (s, r) =>
      let host := r.takeWhile (fun c => c != '/')
      let path := r.drop host.length
      if path.contains '/' then
        String.mk s ++ "://" ++ String.mk host ++
          String.mk ((path.reverse.dropWhile (fun c => c != '/')).reverse)
      else String.mk s ++ "://" ++ String.mk host ++ "/"
  | none => base

/-- Simplified model of urllib.parse.urljoin covering the reference forms
exercised here: empty references, absolute URLs, scheme-relative,
root-relative and bare relative references; no dot-segment normalization. -/
def urljoin (base href : String) : String :=
  if href = "" then base
  else if schemeOf href != "" then href
  else if beginsWith "//".data href.data then schemeOf base ++ ":" ++ href
  else if beginsWith "/".data href.data then hostRoot base ++ href
  else hostDir base ++ href

/-! ## The network and the politeness gate -/

/-- Severity of an emitted log event. -/
inductive LogLevel where
  | info
  | warning
  | error
deriving DecidableEq

/-- The external world of one run: fetch is the requests session (an error
value stands for any requests exception, including the HTTPError raised by
raise_for_status for a non-success status, and any parse failure);
robotsAllows is the RobotFileParser verdict for a generic user agent, with
none standing for any exception while retrieving or parsing robots.txt. -/
structure Network where
  fetch : String → Except String Doc
  robotsAllows : String → Option Bool

/-- WebScraper.can_fetch together with its log output.  With robots respect
disabled it allows unconditionally; a robots retrieval or parse failure is
logged as a warning and the verdict defaults to allow. -/
def can_fetchLog (respect_robots : Bool) (net : Network) (url : String) :
    Bool × List (LogLevel × String) :=
  if !respect_robots then (true, [])
  else
    match net.robotsAllows url with
    | some b => (b, [])
    | none => (true, [(LogLevel.warning, "Could not check robots.txt for " ++ url)])

/-- WebScraper.can_fetch: the robots verdict alone. -/
def can_fetch (respect_robots : Bool) (net : Network) (url : String) : Bool :=
  (can_fetchLog respect_robots net url).1

/-- WebScraper.get_page: refuse any URL whose scheme is not http or https,
then consult can_fetch, then perform the request; every failure path yields
none rather than an exception. -/
def get_page (respect_robots : Bool) (net : Network) (url : String) : Option Doc :=
  if schemeOf url ∉ (["http", "https"] : List String) then none
  else if !can_fetch respect_robots net url then none
  else
    match net.fetch url with
    | .ok doc => some doc
    | .error _ => none

/-- Modelled from the spec: the mayFetch operation of the Politeness
Controller (section 4.1).  In the source this gate is implemented by the
scheme test at the head of get_page combined with can_fetch; it is true
exactly when the fetch path proceeds to issue the request. -/
def mayFetchSpec (respect_robots : Bool) (net : Network) (url : String) : Bool :=
  decide (schemeOf url ∈ (["http", "https"] : List String)) &&
    can_fetch respect_robots net url

/-! ## Extraction records

One structure per content profile, with the fields of the dictionaries built
in the source (the constant type tag of the dictionaries is carried by the
record type itself). -/

structure NewsRecord where
  title : String
  link : String
  summary : String
  date : String
  author : String
  source : String
deriving DecidableEq

structure ProductRecord where
  name : String
  price : String
  rating : String
  link : String
  image : String
  availability : String
  source : String
deriving DecidableEq

structure SocialRecord where
  author : String
  content : String
  timestamp : String
  likes : String
  hashtags : String
  source : String
deriving DecidableEq

structure GenericRecord where
  text : String
  link : String
  tag : String
  classes : String
  source : String
deriving DecidableEq

structure KeywordRecord where
  url : String
  keyword : String
  count : Nat
deriving DecidableEq

/-- Link field extraction: absolute URL of the href of the given element,
empty when there is no element or no nonempty href. -/
def linkOf (baseUrl : String) (o : Option Node) : String :=
  match o with
  | some a =>
      match getAttr a "href" with
      | some h => if h == "" then "" else urljoin baseUrl h
      | none => ""
  | none => ""

/-- Image field extraction, as linkOf but reading the src attribute. -/
def imageOf (baseUrl : String) (o : Option Node) : String :=
  match o with
  | some a =>
      match getAttr a "src" with
      | some h => if h == "" then "" else urljoin baseUrl h
      | none => ""
  | none => ""

/-- Date or timestamp field: the machine-readable datetime attribute when
present and nonempty, otherwise the visible text. -/
def dateOf (o : Option Node) : String :=
  match o with
  | none => ""
  | some de =>
      match getAttr de "datetime" with
      | some dt => if dt == "" then getTextStrip de else dt
      | none => getTextStrip de

/-- Default candidate selectors of scrape_news_articles. -/
def newsSelectors : List Selector :=
  [.tag "article", .cls "article", .cls "news-item", .cls "post",
   .tagAttrContains "div" "class" "article", .cls "story", .cls "news-story"]

/-- Default candidate selectors of scrape_product_listings. -/
def productSelectors : List Selector :=
  [.cls "product", .cls "item", .attrPresent "data-product",
   .cls "product-item", .cls "product-card", .cls "listing-item"]

/-- Default candidate selectors of scrape_social_media_posts. -/
def socialSelectors : List Selector :=
  [.cls "tweet", .cls "post", .cls "status", .attrPresent "data-post",
   .cls "message", .cls "update"]

/-- Default candidate selectors of scrape_generic_content. -/
def genericSelectors : List Selector :=
  [.tag "p", .tag "div", .tag "span", .tag "h1", .tag "h2", .tag "h3",
   .tag "li", .tag "td"]

/-- Record built from one news element in the body of
scrape_news_articles. -/
def newsRecordOfElem (baseUrl : String) (e : Node) : NewsRecord :=
  { title :=
      match findFirst ["h1", "h2", "h3", "h4", ".title", ".headline"] e with
      | some t => getTextStrip t
      | none => "No title"
    link := linkOf baseUrl (findFirst ["a"] e)
    summary :=
      match findFirst ["p", ".summary", ".excerpt", ".description"] e with
      | some s => pyTake (getTextStrip s) 200
      | none => ""
    date := dateOf (findFirst ["time", ".date", ".published", ".timestamp"] e)
    author :=
      match findFirst [".author", ".byline", ".writer"] e with
      | some a => getTextStrip a
      | none => ""
    source := baseUrl }

/-- Record built from one product element in the body of
scrape_product_listings. -/
def productRecordOfElem (baseUrl : String) (e : Node) : ProductRecord :=
  { name :=
      match findFirst ["h1", "h2", "h3", ".product-name", ".title", ".name"] e with
      | some n => getTextStrip n
      | none => "No name"
    price :=
      match findFirst [".price", ".cost", "[class*=\"price\"]", ".amount"] e with
      | some p => getTextStrip p
      | none => "No price"
    rating :=
      match findFirst [".rating", ".stars", "[class*=\"rating\"]", ".score"] e with
      | some r => getTextStrip r
      | none => ""
    link := linkOf baseUrl (findFirst ["a"] e)
    image := imageOf baseUrl (findFirst ["img"] e)
    availability :=
      match findFirst [".availability", ".stock", ".in-stock"] e with
      | some a => getTextStrip a
      | none => ""
    source := baseUrl }

/-- Anchor descendants whose href contains a hash character, as collected
for the hashtags field (get_text with no stripping). -/
def hashtagTexts (e : Node) : List String :=
  (descendants e).filterMap (fun n =>
    if nodeTag n == "a" then
      match getAttr n "href" with
      | some h => if h != "" && h.toList.contains '#' then some (getTextRaw n) else none
      | none => none
    else none)

/-- Record built from one post element in the body of
scrape_social_media_posts. -/
def socialRecordOfElem (baseUrl : String) (e : Node) : SocialRecord :=
  { author :=
      match findFirst [".author", ".username", ".user", ".handle"] e with
      | some a => getTextStrip a
      | none => ""
    content :=
      pyTake
        (match findFirst [".content", ".text", "p", ".message-body"] e with
         | some c => getTextStrip c
         | none => "") 300
    timestamp := dateOf (findFirst ["time", ".timestamp", ".date", ".posted"] e)
    likes :=
      match findFirst [".likes", ".reactions", ".hearts"] e with
      | some l => getTextStrip l
      | none => ""
    hashtags := joinSep ", " (hashtagTexts e)
    source := baseUrl }

/-- Record built from one element in the body of scrape_generic_content;
anc is the ancestor chain of the element, consulted by find_parent. -/
def genericRecordOfElem (baseUrl : String) (e : Node) (anc : List Node) : GenericRecord :=
  let linkElem :=
    match findFirst ["a"] e with
    | some a => some a
    | none => anc.find? (fun n => nodeTag n == "a")
  { text := pyTake (getTextStrip e) 500
    link := linkOf baseUrl linkElem
    tag := nodeTag e
    classes := joinSep " " (nodeClasses e)
    source := baseUrl }

/-! ## The four profile scrapers

Each fetches the page, falls back over its candidate selectors (operator
selectors replace the defaults when the supplied list is nonempty, exactly
the truthiness test of the source), truncates the committed element list to
max_items and builds one record per element; the generic profile further
drops elements whose stripped text has 20 characters or fewer. -/

def scrape_news_articles (respect_robots : Bool) (net : Network) (max_items : Nat)
    (base_url : String) (custom_selectors : List Selector) : List NewsRecord :=
  match get_page respect_robots net base_url with
  | none => []
  | some soup =>
      let selectors := if custom_selectors.isEmpty then newsSelectors else custom_selectors
      let elements := firstMatch soup selectors
      (elements.take max_items).map (fun p => newsRecordOfElem base_url p.1)

def scrape_product_listings (respect_robots : Bool) (net : Network) (max_items : Nat)
    (base_url : String) (custom_selectors : List Selector) : List ProductRecord :=
  match get_page respect_robots net base_url with
  | none => []
  | some soup =>
      let selectors := if custom_selectors.isEmpty then productSelectors else custom_selectors
      let elements := firstMatch soup selectors
      (elements.take max_items).map (fun p => productRecordOfElem base_url p.1)

def scrape_social_media_posts (respect_robots : Bool) (net : Network) (max_items : Nat)
    (base_url : String) (custom_selectors : List Selector) : List SocialRecord :=
  match get_page respect_robots net base_url with
  | none => []
  | some soup =>
      let selectors := if custom_selectors.isEmpty then socialSelectors else custom_selectors
      let elements := firstMatch soup selectors
      (elements.take max_items).map (fun p => socialRecordOfElem base_url p.1)

def scrape_generic_content (respect_robots : Bool) (net : Network) (max_items : Nat)
    (base_url : String) (custom_selectors : List Selector) : List GenericRecord :=
  match get_page respect_robots net base_url with
  | none => []
  | some soup =>
      let selectors := if custom_selectors.isEmpty then genericSelectors else custom_selectors
      let elements := (firstMatch soup selectors).take max_items
      elements.filterMap (fun p =>
        let text := getTextStrip p.1
        if 20 < text.length then some (genericRecordOfElem base_url p.1 p.2) else none)

/-! ## Keyword search across the web -/

/-- Final state of a keyword-search run: the visited set, the trace of
queue entries for which get_page was invoked (in order, with their depths),
and the accumulated keyword records. -/
structure SearchResult where
  visited : List String
  fetched : List (String × Nat)
  results : List KeywordRecord
deriving DecidableEq

/-- The consecutive iterations of the search loop that do not increment
pages_crawled: entries already visited or deeper than max_depth are
discarded; otherwise the URL is marked visited first and get_page is
invoked, and a failed fetch moves on to the next entry.  Returns the
updated visited set and fetch trace, together with the first successfully
fetched page and the remaining queue, if any. -/
def nextPage (respect_robots : Bool) (net : Network) (max_depth : Nat) :
    List (String × Nat) → List String → List (String × Nat) →
    List String × List (String × Nat) × Option (String × Nat × Doc × List (String × Nat))
  | [], visited, fetched => (visited, fetched, none)
  | (url, depth) :: rest, visited, fetched =>
      if url ∈ visited ∨ max_depth < depth then
        nextPage respect_robots net max_depth rest visited fetched
      else
        match get_page respect_robots net url with
        | none => nextPage respect_robots net max_depth rest (url :: visited) (fetched ++ [(url, depth)])
        | some doc => (url :: visited, fetched ++ [(url, depth)], some (url, depth, doc, rest))

/-- The search loop, one round per successful fetch; the fuel argument is
the remaining page budget max_pages - pages_crawled, so the loop stops when
the budget is exhausted or the queue runs dry.  A fetched page contributes
one record per keyword with positive case-insensitive count in the visible
page text, and, below max_depth, enqueues its http and https links at the
next depth. -/
def searchRun (respect_robots : Bool) (net : Network) (keywords : List String)
    (max_depth : Nat) :
    Nat → List (String × Nat) → List String → List (String × Nat) →
    List KeywordRecord → SearchResult
  | 0, _, visited, fetched, results => ⟨visited, fetched, results⟩
  | fuel + 1, q, visited, fetched, results =>
      match nextPage respect_robots net max_depth q visited fetched with
      | (visited1, fetched1, none) => ⟨visited1, fetched1, results⟩
      | (visited1, fetched1, some (url, depth, doc, rest)) =>
          let text := pyLower (docTextSpace doc)
          let newRecs := keywords.filterMap (fun kw =>
            let c := strCount text (pyLower kw)
            if 0 < c then some ⟨url, kw, c⟩ else none)
          let newLinks :=
            if depth < max_depth then
              (docAnchors doc).filterMap (fun href =>
                let link := urljoin url href
                if (schemeOf link = "http" ∨ schemeOf link = "https") ∧ link ∉ visited1 then
                  some (link, depth + 1)
                else none)
            else []
          searchRun respect_robots net keywords max_depth fuel (rest ++ newLinks)
            visited1 fetched1 (results ++ newRecs)

/-- WebScraper.search_keywords_across_web: seeds the queue with the start
URLs at depth 0 and runs the loop with the full page budget. -/
def search_keywords_across_web (respect_robots : Bool) (net : Network)
    (keywords : List String) (start_urls : List String)
    (max_depth max_pages : Nat) : SearchResult :=
  searchRun respect_robots net keywords max_depth max_pages
    (start_urls.map (fun u => (u, 0))) [] [] []

/-! ## General helper lemmas -/

/-- Truncation bound: Python slicing s[:n] yields at most n characters. -/
theorem pyTake_length_le (s : String) (n : Nat) : (pyTake s n).length ≤ n := by
  show (s.data.take n).length ≤ n
  exact List.length_take_le n s.data

/-- A filterMap whose function is a guarded map is the map of the filter. -/
theorem filterMap_ite_map {α β : Type} (f : α → β) (P : α → Prop) [DecidablePred P]
    (l : List α) :
    l.filterMap (fun a => if P a then some (f a) else none) =
      (l.filter (fun a => decide (P a))).map f := by
  induction l with
  | nil => rfl
  | cons a l ih =>
      by_cases h : P a <;>
        simp [List.filterMap_cons, List.filter_cons, h, ih]

/-! ## Claim C5: unsafe schemes are refused before any request -/

/--
C5.  For every URL whose scheme is not http or https, the politeness gate
(mayFetch, realised in the source by the scheme test at the head of
get_page combined with can_fetch) is false, and get_page returns none for
every possible network — in particular the outcome does not depend on the
fetch function at all, so no request is issued for such a URL.
-/
theorem c5_unsafe_scheme_refused (respect_robots : Bool) (url : String)
    (h : schemeOf url ∉ (["http", "https"] : List String)) :
    (∀ net : Network, mayFetchSpec respect_robots net url = false) ∧
    (∀ net : Network, get_page respect_robots net url = none) := by
  constructor
  · intro net
    simp [mayFetchSpec, h]
  · intro net
    simp [get_page, h]

/-- Witness for C5 at the concrete URL ftp://files.example/secret. -/
theorem c5_witness :
    schemeOf "ftp://files.example/secret" ∉ (["http", "https"] : List String) ∧
    get_page true ⟨fun _ => .ok NodeList.nil, fun _ => some true⟩
      "ftp://files.example/secret" = none :=
  ⟨by decide,
   (c5_unsafe_scheme_refused true "ftp://files.example/secret" (by decide)).2
     ⟨fun _ => .ok NodeList.nil, fun _ => some true⟩⟩

/-! ## Claim C6: fetch failures yield an absence value, never a crash -/

/--
C6.  Whenever the session request for a URL fails (any exception: network
error, timeout, non-success status raised by raise_for_status, parse
error — all modelled by the error branch of Network.fetch), get_page
returns none, and consequently every single-profile extraction on that URL
returns the empty record sequence.
-/
theorem c6_fetch_failure_yields_empty (respect_robots : Bool) (net : Network)
    (url msg : String) (max_items : Nat) (cs : List Selector)
    (h : net.fetch url = .error msg) :
    get_page respect_robots net url = none ∧
    scrape_news_articles respect_robots net max_items url cs = [] ∧
    scrape_product_listings respect_robots net max_items url cs = [] ∧
    scrape_social_media_posts respect_robots net max_items url cs = [] ∧
    scrape_generic_content respect_robots net max_items url cs = [] := by
  have hgp : get_page respect_robots net url = none := by
    unfold get_page
    split
    · rfl
    · split
      · rfl
      · rw [h]
  exact ⟨hgp,
    by simp [scrape_news_articles, hgp],
    by simp [scrape_product_listings, hgp],
    by simp [scrape_social_media_posts, hgp],
    by simp [scrape_generic_content, hgp]⟩

/-- Witness for C6: a network whose every request times out. -/
theorem c6_witness :
    (Network.mk (fun _ => .error "timeout") (fun _ => some true)).fetch
        "https://slow.example" = .error "timeout" ∧
    scrape_news_articles true ⟨fun _ => .error "timeout", fun _ => some true⟩
        20 "https://slow.example" [] = [] :=
  ⟨rfl,
   (c6_fetch_failure_yields_empty true ⟨fun _ => .error "timeout", fun _ => some true⟩
      "https://slow.example" "timeout" 20 [] rfl).2.1⟩

/-! ## Claim C7: robots retrieval failure defaults to allow, with a warning -/

/--
C7.  With robots respect enabled, when retrieving or parsing the robots
file fails (the none branch of Network.robotsAllows, standing for any
exception in the try block of can_fetch), the verdict is allow and a
warning-level event is emitted; the controller never denies a fetch merely
because the robots file was unreachable.
-/
theorem c7_robots_failure_allows (net : Network) (url : String)
    (h : net.robotsAllows url = none) :
    can_fetch true net url = true ∧
    (can_fetchLog true net url).2 =
      [(LogLevel.warning, "Could not check robots.txt for " ++ url)] := by
  constructor
  · simp [can_fetch, can_fetchLog, h]
  · simp [can_fetchLog, h]

/-- Witness for C7: a network on which the robots check always fails. -/
theorem c7_witness :
    (Network.mk (fun _ => .ok NodeList.nil) (fun _ => none)).robotsAllows
        "https://x.test/page" = none ∧
    can_fetch true ⟨fun _ => .ok NodeList.nil, fun _ => none⟩ "https://x.test/page" = true :=
  ⟨rfl,
   (c7_robots_failure_allows ⟨fun _ => .ok NodeList.nil, fun _ => none⟩
      "https://x.test/page" rfl).1⟩

/-! ## Claim C1: commitment to the first matching candidate selector -/

/--
C1 amended.  With a fetched document and a candidate list whose first two
selectors match nothing and whose third matches the nonempty element list
es, every profile returns records derived from es alone — the later
candidate selectors (rest) are never consulted and never merged — and for
the news, product and social profiles a positive record cap guarantees a
nonempty result.  (As originally stated the claim also promised a nonempty
result for the generic profile, which its minimum-text-length filter
refutes; see the counterexample.)
-/
theorem c1_first_selector_commit
    (respect_robots : Bool) (net : Network) (max_items : Nat) (url : String)
    (soup : Doc) (s1 s2 s3 : Selector) (rest : List Selector)
    (es : List (Node × List Node))
    (hget : get_page respect_robots net url = some soup)
    (h1 : select soup s1 = []) (h2 : select soup s2 = [])
    (h3 : select soup s3 = es) (hne : es ≠ []) :
    scrape_news_articles respect_robots net max_items url (s1 :: s2 :: s3 :: rest) =
      (es.take max_items).map (fun p => newsRecordOfElem url p.1) ∧
    scrape_product_listings respect_robots net max_items url (s1 :: s2 :: s3 :: rest) =
      (es.take max_items).map (fun p => productRecordOfElem url p.1) ∧
    scrape_social_media_posts respect_robots net max_items url (s1 :: s2 :: s3 :: rest) =
      (es.take max_items).map (fun p => socialRecordOfElem url p.1) ∧
    scrape_generic_content respect_robots net max_items url (s1 :: s2 :: s3 :: rest) =
      (es.take max_items).filterMap (fun p =>
        if 20 < (getTextStrip p.1).length then some (genericRecordOfElem url p.1 p.2)
        else none) ∧
    (0 < max_items →
      scrape_news_articles respect_robots net max_items url (s1 :: s2 :: s3 :: rest) ≠ [] ∧
      scrape_product_listings respect_robots net max_items url (s1 :: s2 :: s3 :: rest) ≠ [] ∧
      scrape_social_media_posts respect_robots net max_items url (s1 :: s2 :: s3 :: rest) ≠ []) := by
  obtain ⟨e, es2, rfl⟩ : ∃ e es2, es = e :: es2 := by
    cases es with
    | nil => exact absurd rfl hne
    | cons e es2 => exact ⟨e, es2, rfl⟩
  have hfm : firstMatch soup (s1 :: s2 :: s3 :: rest) = e :: es2 := by
    simp [firstMatch, h1, h2, h3]
  have hnews : scrape_news_articles respect_robots net max_items url
      (s1 :: s2 :: s3 :: rest) =
      ((e :: es2).take max_items).map (fun p => newsRecordOfElem url p.1) := by
    simp [scrape_news_articles, hget, hfm]
  have hprod : scrape_product_listings respect_robots net max_items url
      (s1 :: s2 :: s3 :: rest) =
      ((e :: es2).take max_items).map (fun p => productRecordOfElem url p.1) := by
    simp [scrape_product_listings, hget, hfm]
  have hsoc : scrape_social_media_posts respect_robots net max_items url
      (s1 :: s2 :: s3 :: rest) =
      ((e :: es2).take max_items).map (fun p => socialRecordOfElem url p.1) := by
    simp [scrape_social_media_posts, hget, hfm]
  have hgen : scrape_generic_content respect_robots net max_items url
      (s1 :: s2 :: s3 :: rest) =
      ((e :: es2).take max_items).filterMap (fun p =>
        if 20 < (getTextStrip p.1).length then some (genericRecordOfElem url p.1 p.2)
        else none) := by
    simp [scrape_generic_content, hget, hfm]
  refine ⟨hnews, hprod, hsoc, hgen, fun hmi => ?_⟩
  obtain ⟨m, rfl⟩ : ∃ m, max_items = m + 1 := ⟨max_items - 1, by omega⟩
  refine ⟨?_, ?_, ?_⟩
  · rw [hnews]; simp
  · rw [hprod]; simp
  · rw [hsoc]; simp

/-- Concrete document for the C1 counterexample: a single span element
(third generic candidate selector) with visible text of 5 characters. -/
def c1doc : Doc := .cons (.elem "span" [] [] (.cons (.text "short") .nil)) .nil

/-- Network delivering c1doc for every request. -/
def c1net : Network := ⟨fun _ => .ok c1doc, fun _ => some true⟩

/--
Counterexample to C1 as stated: a document matched only by the third
candidate selector of the generic profile (span; neither p nor div nor any
later candidate matches) for which extraction nevertheless returns the
empty list, because the only matched element has visible text of fewer
than 21 characters — refuting the promised nonempty result.
-/
theorem c1_counterexample :
    select c1doc (.tag "p") = [] ∧
    select c1doc (.tag "div") = [] ∧
    (select c1doc (.tag "span")).map (fun p => getTextStrip p.1) = ["short"] ∧
    select c1doc (.tag "h1") = [] ∧
    select c1doc (.tag "h2") = [] ∧
    select c1doc (.tag "h3") = [] ∧
    select c1doc (.tag "li") = [] ∧
    select c1doc (.tag "td") = [] ∧
    scrape_generic_content true c1net 20 "https://x.test" [] = [] :=
  ⟨rfl, rfl, by decide, rfl, rfl, rfl, rfl, rfl, by decide⟩

/-- Concrete document for the C1 witness: an article (third in the custom
candidate list used below) with a long headline. -/
def c1wdoc : Doc :=
  .cons (.elem "article" [] [] (.cons (.text "Breaking: a sufficiently long headline") .nil)) .nil

/-- Network delivering c1wdoc for every request. -/
def c1wnet : Network := ⟨fun _ => .ok c1wdoc, fun _ => some true⟩

/-- Witness for C1 at a concrete document matched only by the third
candidate selector. -/
theorem c1_witness :
    scrape_news_articles true c1wnet 5 "https://x.test"
      [Selector.tag "p", Selector.tag "div", Selector.tag "article"] ≠ [] :=
  ((c1_first_selector_commit true c1wnet 5 "https://x.test" c1wdoc
      (.tag "p") (.tag "div") (.tag "article") []
      [(Node.elem "article" [] [] (.cons (.text "Breaking: a sufficiently long headline") .nil), [])]
      rfl rfl rfl rfl (by simp)).2.2.2.2 (by omega)).1

/-! ## Claim C8: truncation caps on text fields -/

/-- Concrete document for the C8 counterexample: a news article whose
headline has 501 characters. -/
def c8doc : Doc :=
  .cons (.elem "article" [] []
    (.cons (.elem "h1" [] [] (.cons (.text (String.mk (List.replicate 501 'a'))) .nil)) .nil)) .nil

/-- Network delivering c8doc for every request. -/
def c8net : Network := ⟨fun _ => .ok c8doc, fun _ => some true⟩

set_option maxRecDepth 100000 in
/--
Counterexample to C8 as stated: the claim puts every text field, titles
included, under a per-profile cap of at most 500 characters, but the news
profile never truncates titles — a 501-character headline is returned
whole, exceeding every admissible cap.
-/
theorem c8_counterexample :
    (scrape_news_articles true c8net 20 "https://x.test" []).map
      (fun r => r.title.length) = [501] := by
  decide

/--
C8 amended.  Exactly three text fields are truncated, each to a fixed cap
in the 200 to 500 character range: the news summary to 200, the social
content to 300 and the generic text to 500 characters.  Titles, names and
the remaining text fields are returned untruncated.
-/
theorem c8_truncation_caps (respect_robots : Bool) (net : Network) (max_items : Nat)
    (url : String) (cs : List Selector) :
    (∀ r ∈ scrape_news_articles respect_robots net max_items url cs,
        r.summary.length ≤ 200) ∧
    (∀ r ∈ scrape_social_media_posts respect_robots net max_items url cs,
        r.content.length ≤ 300) ∧
    (∀ r ∈ scrape_generic_content respect_robots net max_items url cs,
        r.text.length ≤ 500) := by
  refine ⟨?_, ?_, ?_⟩
  · intro r hr
    unfold scrape_news_articles at hr
    split at hr
    · simp at hr
    · simp only [List.mem_map] at hr
      obtain ⟨p, hp, rfl⟩ := hr
      simp only [newsRecordOfElem]
      split
      · exact pyTake_length_le _ _
      · decide
  · intro r hr
    unfold scrape_social_media_posts at hr
    split at hr
    · simp at hr
    · simp only [List.mem_map] at hr
      obtain ⟨p, hp, rfl⟩ := hr
      simp only [socialRecordOfElem]
      exact pyTake_length_le _ _
  · intro r hr
    unfold scrape_generic_content at hr
    split at hr
    · simp at hr
    · simp only [List.mem_filterMap] at hr
      obtain ⟨p, hp, hsome⟩ := hr
      by_cases hlen : 20 < (getTextStrip p.1).length
      · rw [if_pos hlen] at hsome
        obtain rfl := Option.some.inj hsome
        simp only [genericRecordOfElem]
        exact pyTake_length_le _ _
      · rw [if_neg hlen] at hsome
        exact absurd hsome (by simp)

/-- Concrete document for the C8 witness: an article whose paragraph is the
summary. -/
def c8wdoc : Doc :=
  .cons (.elem "article" [] []
    (.cons (.elem "p" [] [] (.cons (.text "this paragraph is the summary") .nil)) .nil)) .nil

/-- Network delivering c8wdoc for every request. -/
def c8wnet : Network := ⟨fun _ => .ok c8wdoc, fun _ => some true⟩

/-- Witness for C8 at a concrete extracted news record. -/
theorem c8_witness :
    (⟨"No title", "", "this paragraph is the summary", "", "", "https://x.test"⟩ : NewsRecord) ∈
      scrape_news_articles true c8wnet 20 "https://x.test" [] ∧
    ("this paragraph is the summary" : String).length ≤ 200 :=
  ⟨by decide,
   (c8_truncation_caps true c8wnet 20 "https://x.test" []).1
     ⟨"No title", "", "this paragraph is the summary", "", "", "https://x.test"⟩ (by decide)⟩

/-! ## Claim C9: the generic minimum-text-length filter -/

/-- Concrete document for the C9 counterexample: one paragraph whose
visible text has exactly 20 characters. -/
def c9doc : Doc := .cons (.elem "p" [] [] (.cons (.text "12345678901234567890") .nil)) .nil

/-- Network delivering c9doc for every request. -/
def c9net : Network := ⟨fun _ => .ok c9doc, fun _ => some true⟩

/--
Counterexample to C9 as stated: the claim promises a record for every
matched element with visible text of at least 20 characters, but the source
keeps only elements with strictly more than 20 characters — an element with
exactly 20 characters of text is filtered out and the result is empty.
-/
theorem c9_counterexample :
    (firstMatch c9doc genericSelectors).map (fun p => getTextStrip p.1) =
      ["12345678901234567890"] ∧
    ("12345678901234567890" : String).length = 20 ∧
    scrape_generic_content true c9net 20 "https://x.test" [] = [] :=
  ⟨by decide, by decide, by decide⟩

/--
C9 amended.  For the generic profile on a fetched document, among the
first max_items elements matched by the committed selector exactly those
whose stripped visible text has strictly more than 20 characters produce a
record (in order), and elements with 20 characters or fewer produce none.
-/
theorem c9_generic_text_filter (respect_robots : Bool) (net : Network) (max_items : Nat)
    (url : String) (cs : List Selector) (soup : Doc)
    (hget : get_page respect_robots net url = some soup) :
    scrape_generic_content respect_robots net max_items url cs =
      (((firstMatch soup (if cs.isEmpty then genericSelectors else cs)).take max_items).filter
          (fun p => decide (20 < (getTextStrip p.1).length))).map
        (fun p => genericRecordOfElem url p.1 p.2) ∧
    ∀ p ∈ (firstMatch soup (if cs.isEmpty then genericSelectors else cs)).take max_items,
      20 < (getTextStrip p.1).length →
        genericRecordOfElem url p.1 p.2 ∈
          scrape_generic_content respect_robots net max_items url cs := by
  have heq : scrape_generic_content respect_robots net max_items url cs =
      (((firstMatch soup (if cs.isEmpty then genericSelectors else cs)).take max_items).filter
          (fun p => decide (20 < (getTextStrip p.1).length))).map
        (fun p => genericRecordOfElem url p.1 p.2) := by
    unfold scrape_generic_content
    rw [hget]
    exact filterMap_ite_map _ _ _
  refine ⟨heq, fun p hp hlen => ?_⟩
  rw [heq]
  exact List.mem_map_of_mem _ (List.mem_filter.mpr ⟨hp, by simpa using hlen⟩)

/-- Concrete element for the C9 witness: a paragraph with 45 characters of
text. -/
def c9welem : Node :=
  .elem "p" [] [] (.cons (.text "this text is well over twenty characters long") .nil)

/-- Document containing only c9welem. -/
def c9wdoc : Doc := .cons c9welem .nil

/-- Network delivering c9wdoc for every request. -/
def c9wnet : Network := ⟨fun _ => .ok c9wdoc, fun _ => some true⟩

/-- Witness for C9: the long-text paragraph produces a generic record. -/
theorem c9_witness :
    genericRecordOfElem "https://x.test" c9welem [] ∈
      scrape_generic_content true c9wnet 20 "https://x.test" [] :=
  (c9_generic_text_filter true c9wnet 20 "https://x.test" [] c9wdoc rfl).2
    (c9welem, []) (List.mem_cons_self _ _) (by decide)

/-! ## Traversal invariants of the keyword-search loop -/

/-- Invariant tying the fetch trace to the visited set: the fetched URLs
are pairwise distinct, and every fetched URL is in the visited set (it was
marked visited at the moment it was dequeued, before fetching). -/
def FetchInv (visited : List String) (fetched : List (String × Nat)) : Prop :=
  (fetched.map Prod.fst).Nodup ∧ ∀ p ∈ fetched, p.1 ∈ visited

/-- Marking a not-yet-visited URL visited and recording its fetch preserves
the invariant. -/
theorem fetchInv_extend (visited : List String) (fetched : List (String × Nat))
    (url : String) (depth : Nat)
    (h : FetchInv visited fetched) (hnv : url ∉ visited) :
    FetchInv (url :: visited) (fetched ++ [(url, depth)]) := by
  constructor
  · rw [List.map_append]
    refine List.Nodup.append h.1 (List.nodup_singleton url) ?_
    intro a ha hmem
    have ha2 : a = url := by simpa using hmem
    subst ha2
    obtain ⟨p, hp, hfst⟩ := List.mem_map.mp ha
    exact hnv (hfst ▸ h.2 p hp)
  · intro p hp
    rcases List.mem_append.mp hp with hl | hr
    · exact List.mem_cons_of_mem _ (h.2 p hl)
    · have : p = (url, depth) := by simpa using hr
      subst this
      exact List.mem_cons_self _ _

/-- The skip-and-fetch phase preserves the fetch invariant. -/
theorem nextPage_fetchInv (rb : Bool) (net : Network) (dmax : Nat) :
    ∀ (q : List (String × Nat)) (visited : List String) (fetched : List (String × Nat)),
      FetchInv visited fetched →
      FetchInv (nextPage rb net dmax q visited fetched).1
        (nextPage rb net dmax q visited fetched).2.1 := by
  intro q
  induction q with
  | nil => intro visited fetched h; exact h
  | cons e rest ih =>
      obtain ⟨url, depth⟩ := e
      intro visited fetched h
      simp only [nextPage]
      by_cases hcond : url ∈ visited ∨ dmax < depth
      · rw [if_pos hcond]
        exact ih _ _ h
      · rw [if_neg hcond]
        have hnv : url ∉ visited := fun hv => hcond (Or.inl hv)
        have hext := fetchInv_extend visited fetched url depth h hnv
        cases hgp : get_page rb net url with
        | none => exact ih _ _ hext
        | some doc => exact hext

/-- The search loop preserves the fetch invariant. -/
theorem searchRun_fetchInv (rb : Bool) (net : Network) (kws : List String) (dmax : Nat) :
    ∀ (fuel : Nat) (q : List (String × Nat)) (visited : List String)
      (fetched : List (String × Nat)) (results : List KeywordRecord),
      FetchInv visited fetched →
      FetchInv (searchRun rb net kws dmax fuel q visited fetched results).visited
        (searchRun rb net kws dmax fuel q visited fetched results).fetched := by
  intro fuel
  induction fuel with
  | zero => intro q v f res h; exact h
  | succ fuel ih =>
      intro q v f res h
      have hnp := nextPage_fetchInv rb net dmax q v f h
      rcases hq : nextPage rb net dmax q v f with ⟨v1, f1, out⟩
      rw [hq] at hnp
      cases out with
      | none => simp only [searchRun, hq]; exact hnp
      | some t =>
          obtain ⟨url, depth, doc, rest⟩ := t
          simp only [searchRun, hq]
          exact ih _ _ _ _ hnp

/--
C3.  In every keyword-search run no URL is fetched twice: the trace of
queue entries on which get_page was invoked contains pairwise distinct
URLs, and every fetched URL is in the final visited set, having been added
at the moment it was dequeued, before fetching (entries whose URL was
already visited are discarded without fetching by the loop guard).
-/
theorem c3_no_repeated_fetches (rb : Bool) (net : Network) (kws seeds : List String)
    (dmax pmax : Nat) :
    ((search_keywords_across_web rb net kws seeds dmax pmax).fetched.map Prod.fst).Nodup ∧
    ∀ p ∈ (search_keywords_across_web rb net kws seeds dmax pmax).fetched,
      p.1 ∈ (search_keywords_across_web rb net kws seeds dmax pmax).visited := by
  have h := searchRun_fetchInv rb net kws dmax pmax (seeds.map fun u => (u, 0)) [] [] []
    ⟨List.nodup_nil, by simp⟩
  exact ⟨h.1, h.2⟩

/-- Concrete page for the C3 witness. -/
def c3doc : Doc := .cons (.elem "body" [] [] (.cons (.text "sample page text") .nil)) .nil

/-- Network delivering c3doc for every request. -/
def c3net : Network := ⟨fun _ => .ok c3doc, fun _ => some true⟩

/-- Witness for C3 at a concrete one-page run. -/
theorem c3_witness :
    ("https://c3.test", 0) ∈
      (search_keywords_across_web true c3net ["sample"] ["https://c3.test"] 0 30).fetched ∧
    "https://c3.test" ∈
      (search_keywords_across_web true c3net ["sample"] ["https://c3.test"] 0 30).visited :=
  ⟨by decide,
   (c3_no_repeated_fetches true c3net ["sample"] ["https://c3.test"] 0 30).2
     ("https://c3.test", 0) (by decide)⟩

/-- The skip-and-fetch phase only records fetches at admissible depths. -/
theorem nextPage_depthBound (rb : Bool) (net : Network) (dmax : Nat) :
    ∀ (q : List (String × Nat)) (visited : List String) (fetched : List (String × Nat)),
      (∀ p ∈ fetched, p.2 ≤ dmax) →
      ∀ p ∈ (nextPage rb net dmax q visited fetched).2.1, p.2 ≤ dmax := by
  intro q
  induction q with
  | nil => intro v f h; exact h
  | cons e rest ih =>
      obtain ⟨url, depth⟩ := e
      intro v f h
      simp only [nextPage]
      by_cases hcond : url ∈ v ∨ dmax < depth
      · rw [if_pos hcond]
        exact ih _ _ h
      · rw [if_neg hcond]
        have hdep : depth ≤ dmax := by
          rcases Nat.lt_or_ge dmax depth with hlt | hge
          · exact absurd (Or.inr hlt) hcond
          · exact hge
        have hext : ∀ p ∈ f ++ [(url, depth)], p.2 ≤ dmax := by
          intro p hp
          rcases List.mem_append.mp hp with hl | hr
          · exact h p hl
          · have : p = (url, depth) := by simpa using hr
            subst this
            exact hdep
        cases hgp : get_page rb net url with
        | none => exact ih _ _ hext
        | some doc => exact hext

/-- The search loop only records fetches at admissible depths. -/
theorem searchRun_depthBound (rb : Bool) (net : Network) (kws : List String) (dmax : Nat) :
    ∀ (fuel : Nat) (q : List (String × Nat)) (visited : List String)
      (fetched : List (String × Nat)) (results : List KeywordRecord),
      (∀ p ∈ fetched, p.2 ≤ dmax) →
      ∀ p ∈ (searchRun rb net kws dmax fuel q visited fetched results).fetched,
        p.2 ≤ dmax := by
  intro fuel
  induction fuel with
  | zero => intro q v f res h; exact h
  | succ fuel ih =>
      intro q v f res h
      have hnp := nextPage_depthBound rb net dmax q v f h
      rcases hq : nextPage rb net dmax q v f with ⟨v1, f1, out⟩
      rw [hq] at hnp
      cases out with
      | none => simp only [searchRun, hq]; exact hnp
      | some t =>
          obtain ⟨url, depth, doc, rest⟩ := t
          simp only [searchRun, hq]
          exact ih _ _ _ _ hnp

/--
C4.  In every keyword-search run with maximum depth dmax, no page is
fetched at a depth greater than dmax: dequeued entries deeper than dmax
are discarded by the loop guard without being fetched, so every entry of
the fetch trace has depth at most dmax.
-/
theorem c4_depth_bound (rb : Bool) (net : Network) (kws seeds : List String)
    (dmax pmax : Nat) :
    ∀ p ∈ (search_keywords_across_web rb net kws seeds dmax pmax).fetched,
      p.2 ≤ dmax :=
  searchRun_depthBound rb net kws dmax pmax (seeds.map fun u => (u, 0)) [] [] []
    (by simp)

/-- Concrete page for the C4 witness. -/
def c4doc : Doc := .cons (.elem "body" [] [] (.cons (.text "some page") .nil)) .nil

/-- Network delivering c4doc for every request. -/
def c4net : Network := ⟨fun _ => .ok c4doc, fun _ => some true⟩

/-- Witness for C4 at a concrete one-page run with maximum depth 1. -/
theorem c4_witness :
    ("https://c4.test", 0) ∈
      (search_keywords_across_web true c4net ["page"] ["https://c4.test"] 1 30).fetched ∧
    (("https://c4.test", 0) : String × Nat).2 ≤ 1 :=
  ⟨by decide,
   c4_depth_bound true c4net ["page"] ["https://c4.test"] 1 30
     ("https://c4.test", 0) (by decide)⟩

/-! ## Accounting for every keyword record -/

/-- A keyword record is explained by a fetch trace when its keyword was
supplied, its count is positive, its URL occurs in the trace, the fetch of
that URL succeeds, and its count is exactly the case-insensitive
occurrence count of the keyword in the visible text of the fetched page. -/
def recordExplained (rb : Bool) (net : Network) (kws : List String)
    (fetched : List (String × Nat)) (r : KeywordRecord) : Prop :=
  r.keyword ∈ kws ∧ 0 < r.count ∧
  ∃ d, (r.url, d) ∈ fetched ∧
  ∃ doc, get_page rb net r.url = some doc ∧
    r.count = strCount (pyLower (docTextSpace doc)) (pyLower r.keyword)

/-- Appending a failed fetch to the trace explains no new records. -/
theorem recordExplained_append_none (rb : Bool) (net : Network) (kws : List String)
    (fetched : List (String × Nat)) (u : String) (d : Nat)
    (hgp : get_page rb net u = none) (r : KeywordRecord) :
    recordExplained rb net kws (fetched ++ [(u, d)]) r ↔
      recordExplained rb net kws fetched r := by
  unfold recordExplained
  constructor
  · rintro ⟨hk, hc, d2, hmem, doc, hgp2, hcnt⟩
    rcases List.mem_append.mp hmem with hl | hr2
    · exact ⟨hk, hc, d2, hl, doc, hgp2, hcnt⟩
    · have hpair : (r.url, d2) = (u, d) := by simpa using hr2
      have hu : r.url = u := congrArg Prod.fst hpair
      rw [hu, hgp] at hgp2
      exact absurd hgp2 (by simp)
  · rintro ⟨hk, hc, d2, hmem, doc, hgp2, hcnt⟩
    exact ⟨hk, hc, d2, List.mem_append_left _ hmem, doc, hgp2, hcnt⟩

/-- Appending a successful fetch to the trace explains exactly the records
of that page in addition. -/
theorem recordExplained_append_some (rb : Bool) (net : Network) (kws : List String)
    (fetched : List (String × Nat)) (u : String) (d : Nat) (doc : Doc)
    (hgp : get_page rb net u = some doc) (r : KeywordRecord) :
    recordExplained rb net kws (fetched ++ [(u, d)]) r ↔
      (recordExplained rb net kws fetched r ∨
        (r.url = u ∧ r.keyword ∈ kws ∧ 0 < r.count ∧
         r.count = strCount (pyLower (docTextSpace doc)) (pyLower r.keyword))) := by
  unfold recordExplained
  constructor
  · rintro ⟨hk, hc, d2, hmem, doc2, hgp2, hcnt⟩
    rcases List.mem_append.mp hmem with hl | hr2
    · exact Or.inl ⟨hk, hc, d2, hl, doc2, hgp2, hcnt⟩
    · have hpair : (r.url, d2) = (u, d) := by simpa using hr2
      have hu : r.url = u := congrArg Prod.fst hpair
      right
      refine ⟨hu, hk, hc, ?_⟩
      rw [hu, hgp] at hgp2
      obtain rfl : doc = doc2 := Option.some.inj hgp2
      exact hcnt
  · rintro (⟨hk, hc, d2, hmem, doc2, hgp2, hcnt⟩ | ⟨hu, hk, hc, hcnt⟩)
    · exact ⟨hk, hc, d2, List.mem_append_left _ hmem, doc2, hgp2, hcnt⟩
    · refine ⟨hk, hc, d, ?_, doc, ?_, hcnt⟩
      · rw [hu]
        exact List.mem_append_right _ (by simp)
      · rw [hu]
        exact hgp

/-- Membership in the per-page record list built from one fetched page. -/
theorem mem_keywordRecs (kws : List String) (u text : String) (r : KeywordRecord) :
    (r ∈ kws.filterMap (fun kw =>
        let c := strCount text (pyLower kw)
        if 0 < c then some (⟨u, kw, c⟩ : KeywordRecord) else none)) ↔
      (r.url = u ∧ r.keyword ∈ kws ∧ 0 < r.count ∧
        r.count = strCount text (pyLower r.keyword)) := by
  simp only [List.mem_filterMap]
  constructor
  · rintro ⟨kw, hkw, hsome⟩
    by_cases hc : 0 < strCount text (pyLower kw)
    · rw [if_pos hc] at hsome
      obtain rfl := Option.some.inj hsome
      exact ⟨rfl, hkw, hc, rfl⟩
    · rw [if_neg hc] at hsome
      exact absurd hsome (by simp)
  · obtain ⟨ru, rk, rc⟩ := r
    rintro ⟨hu, hk, hc, hcnt⟩
    dsimp only at hu hk hc hcnt ⊢
    subst hu
    subst hcnt
    exact ⟨rk, hk, by rw [if_pos hc]⟩

/-- The skip-and-fetch phase changes the explained records not at all when
it exhausts the queue, and by exactly the successfully fetched page
otherwise. -/
theorem nextPage_explained (rb : Bool) (net : Network) (kws : List String) (dmax : Nat) :
    ∀ (q : List (String × Nat)) (visited : List String) (fetched : List (String × Nat)),
      ((nextPage rb net dmax q visited fetched).2.2 = none →
        ∀ r, recordExplained rb net kws (nextPage rb net dmax q visited fetched).2.1 r ↔
          recordExplained rb net kws fetched r) ∧
      (∀ (url : String) (depth : Nat) (doc : Doc) (rest : List (String × Nat)),
        (nextPage rb net dmax q visited fetched).2.2 = some (url, depth, doc, rest) →
        get_page rb net url = some doc ∧
        ∀ r, recordExplained rb net kws (nextPage rb net dmax q visited fetched).2.1 r ↔
          (recordExplained rb net kws fetched r ∨
            (r.url = url ∧ r.keyword ∈ kws ∧ 0 < r.count ∧
             r.count = strCount (pyLower (docTextSpace doc)) (pyLower r.keyword)))) := by
  intro q
  induction q with
  | nil =>
      intro visited fetched
      constructor
      · intro _ r
        exact Iff.rfl
      · intro url depth doc rest hsome
        exact absurd hsome (by simp [nextPage])
  | cons e rest0 ih =>
      obtain ⟨url0, depth0⟩ := e
      intro visited fetched
      simp only [nextPage]
      by_cases hcond : url0 ∈ visited ∨ dmax < depth0
      · rw [if_pos hcond]
        exact ih visited fetched
      · rw [if_neg hcond]
        cases hgp : get_page rb net url0 with
        | none =>
            obtain ⟨ihn, ihs⟩ := ih (url0 :: visited) (fetched ++ [(url0, depth0)])
            constructor
            · intro hnone r
              exact (ihn hnone r).trans
                (recordExplained_append_none rb net kws fetched url0 depth0 hgp r)
            · intro url depth doc rest hsome
              obtain ⟨hgp2, hiff⟩ := ihs url depth doc rest hsome
              refine ⟨hgp2, fun r => (hiff r).trans ?_⟩
              exact or_congr_left
                (recordExplained_append_none rb net kws fetched url0 depth0 hgp r)
        | some doc0 =>
            constructor
            · intro hnone
              exact absurd hnone (by simp)
            · intro url depth doc rest hsome
              have hsome2 : some (url0, depth0, doc0, rest0) =
                  some (url, depth, doc, rest) := hsome
              have hinj := Option.some.inj hsome2
              simp only [Prod.mk.injEq] at hinj
              obtain ⟨rfl, rfl, rfl, rfl⟩ := hinj
              exact ⟨hgp, fun r =>
                recordExplained_append_some rb net kws fetched url0 depth0 doc0 hgp r⟩

/-- Loop invariant: the accumulated results are exactly the records
explained by the fetch trace. -/
theorem searchRun_explained (rb : Bool) (net : Network) (kws : List String) (dmax : Nat) :
    ∀ (fuel : Nat) (q : List (String × Nat)) (visited : List String)
      (fetched : List (String × Nat)) (results : List KeywordRecord),
      (∀ r, r ∈ results ↔ recordExplained rb net kws fetched r) →
      ∀ r, r ∈ (searchRun rb net kws dmax fuel q visited fetched results).results ↔
        recordExplained rb net kws
          (searchRun rb net kws dmax fuel q visited fetched results).fetched r := by
  intro fuel
  induction fuel with
  | zero => intro q v f res h; exact h
  | succ fuel ih =>
      intro q v f res h
      have hnp := nextPage_explained rb net kws dmax q v f
      rcases hq : nextPage rb net dmax q v f with ⟨v1, f1, out⟩
      rw [hq] at hnp
      cases out with
      | none =>
          simp only [searchRun, hq]
          intro r
          exact (h r).trans (hnp.1 rfl r).symm
      | some t =>
          obtain ⟨url, depth, doc, rest⟩ := t
          obtain ⟨hgp, hiff⟩ := hnp.2 url depth doc rest rfl
          simp only [searchRun, hq]
          apply ih
          intro r2
          simp only [List.mem_append]
          rw [h r2]
          constructor
          · rintro (he | hn)
            · exact (hiff r2).mpr (Or.inl he)
            · exact (hiff r2).mpr
                (Or.inr ((mem_keywordRecs kws url (pyLower (docTextSpace doc)) r2).mp hn))
          · intro he1
            rcases (hiff r2).mp he1 with he | hx
            · exact Or.inl he
            · exact Or.inr
                ((mem_keywordRecs kws url (pyLower (docTextSpace doc)) r2).mpr hx)

/-! ## Characterisation of the occurrence count -/

/-- The occurrence test recognises exactly the lists that start with the
pattern. -/
theorem beginsWith_iff : ∀ (pat l : List Char),
    beginsWith pat l = true ↔ ∃ l2, l = pat ++ l2 := by
  intro pat
  induction pat with
  | nil =>
      intro l
      simp [beginsWith]
  | cons c cs ih =>
      intro l
      cases l with
      | nil => simp [beginsWith]
      | cons d ds =>
          simp only [beginsWith, Bool.and_eq_true, beq_iff_eq]
          constructor
          · rintro ⟨h1, h2⟩
            subst h1
            obtain ⟨l2, rfl⟩ := (ih ds).mp h2
            exact ⟨l2, rfl⟩
          · rintro ⟨l2, hl⟩
            simp only [List.cons_append] at hl
            injection hl with h1 h2
            exact ⟨h1.symm, (ih ds).mpr ⟨l2, h2⟩⟩

/-- Positivity of the greedy non-overlapping count is equivalent to the
existence of an occurrence of the pattern as a contiguous sublist. -/
theorem countGo_pos_iff (pat : List Char) (hp : pat ≠ []) :
    ∀ l, 0 < countGo pat 0 l ↔ ∃ l1 l2, l = l1 ++ pat ++ l2 := by
  intro l
  induction l with
  | nil =>
      constructor
      · intro h
        simp [countGo] at h
      · rintro ⟨l1, l2, hl⟩
        rw [List.nil_eq, List.append_eq_nil, List.append_eq_nil] at hl
        exact absurd hl.1.2 hp
  | cons c cs ih =>
      by_cases hb : beginsWith pat (c :: cs) = true
      · constructor
        · intro _
          obtain ⟨l2, hl⟩ := (beginsWith_iff pat (c :: cs)).mp hb
          exact ⟨[], l2, by simpa using hl⟩
        · intro _
          show 0 < countGo pat 0 (c :: cs)
          simp only [countGo]
          rw [if_pos hb]
          omega
      · constructor
        · intro h
          have h2 : 0 < countGo pat 0 cs := by
            have h3 : countGo pat 0 (c :: cs) = countGo pat 0 cs := by
              simp only [countGo]
              rw [if_neg hb]
            rw [h3] at h
            exact h
          obtain ⟨l1, l2, rfl⟩ := ih.mp h2
          exact ⟨c :: l1, l2, rfl⟩
        · rintro ⟨l1, l2, hl⟩
          cases l1 with
          | nil =>
              exact absurd
                ((beginsWith_iff pat (c :: cs)).mpr ⟨l2, by simpa using hl⟩) hb
          | cons c2 l1t =>
              simp only [List.cons_append] at hl
              injection hl with h1 h2
              have h3 : 0 < countGo pat 0 cs := ih.mpr ⟨l1t, l2, h2⟩
              show 0 < countGo pat 0 (c :: cs)
              simp only [countGo]
              rw [if_neg hb]
              exact h3

/-- Positivity of the Python count is equivalent to substring occurrence. -/
theorem strCount_pos_iff (t pat : String) (hp : pat ≠ "") :
    0 < strCount t pat ↔ ∃ l1 l2, t.data = l1 ++ pat.data ++ l2 := by
  have hpd : pat.data ≠ [] := fun h => hp (String.ext h)
  unfold strCount
  rw [if_neg hp]
  exact countGo_pos_iff pat.data hpd t.data

/-! ## Claim C2: keyword records exactly match positive occurrence counts -/

/-- Concrete page for the C2 scenario: visible text cat dog cat. -/
def c2doc : Doc := .cons (.elem "body" [] [] (.cons (.text "cat dog cat") .nil)) .nil

/-- Network of the C2 scenario: one page at the seed URL, every other
request fails. -/
def c2net : Network :=
  ⟨fun u => if u = "https://x.test" then .ok c2doc else .error "connection error",
   fun _ => some true⟩

/--
C2.  In every keyword-search run, a record is in the result sequence
exactly when its keyword was supplied, its URL is one of the successfully
fetched pages, and its count — necessarily positive, so zero-count
keywords produce no record — equals the case-insensitive occurrence count
of the keyword in the visible text of that page.  In the concrete
scenario (seed page with text cat dog cat, keywords cat and bird, maximum
depth 0) the run returns exactly one record, for cat with count 2, and
none for bird.
-/
theorem c2_keyword_record_iff :
    (∀ (rb : Bool) (net : Network) (kws seeds : List String) (dmax pmax : Nat)
        (r : KeywordRecord),
      r ∈ (search_keywords_across_web rb net kws seeds dmax pmax).results ↔
        (r.keyword ∈ kws ∧ 0 < r.count ∧
         ∃ d, (r.url, d) ∈ (search_keywords_across_web rb net kws seeds dmax pmax).fetched ∧
         ∃ doc, get_page rb net r.url = some doc ∧
           r.count = strCount (pyLower (docTextSpace doc)) (pyLower r.keyword))) ∧
    search_keywords_across_web true c2net ["cat", "bird"] ["https://x.test"] 0 30 =
      ⟨["https://x.test"], [("https://x.test", 0)], [⟨"https://x.test", "cat", 2⟩]⟩ := by
  constructor
  · intro rb net kws seeds dmax pmax r
    exact searchRun_explained rb net kws dmax pmax (seeds.map fun u => (u, 0)) [] [] []
      (by intro r2; simp [recordExplained]) r
  · decide

/-! ## Claim C10: counts are substring counts, not whole-word counts -/

/-- Concrete page for the C10 scenario: the keyword cat occurs only inside
the longer word category. -/
def c10doc : Doc := .cons (.elem "body" [] [] (.cons (.text "the category page") .nil)) .nil

/-- Network of the C10 scenario. -/
def c10net : Network :=
  ⟨fun u => if u = "https://x.test" then .ok c10doc else .error "error",
   fun _ => some true⟩

/--
C10.  The count carried by every keyword record is the number of
non-overlapping occurrences of the lowercased keyword as a substring of
the lowercased visible page text, computed by the greedy left-to-right
scan of the Python count method: the count is positive exactly when the
pattern occurs as a contiguous substring, with no word-boundary condition,
so occurrences embedded inside longer words are counted — concretely, the
keyword cat on a page reading "the category page" yields a record with
count 1, and overlapping occurrences are not double-counted (the count of
aa in aaaa is 2).
-/
theorem c10_substring_count :
    (∀ (t pat : String), pat ≠ "" →
      (0 < strCount t pat ↔ ∃ l1 l2, t.data = l1 ++ pat.data ++ l2)) ∧
    (∀ (rb : Bool) (net : Network) (kws seeds : List String) (dmax pmax : Nat)
        (r : KeywordRecord),
      r ∈ (search_keywords_across_web rb net kws seeds dmax pmax).results →
        0 < r.count ∧
        ∃ doc, get_page rb net r.url = some doc ∧
          r.count = strCount (pyLower (docTextSpace doc)) (pyLower r.keyword)) ∧
    (search_keywords_across_web true c10net ["cat"] ["https://x.test"] 0 30).results =
      [⟨"https://x.test", "cat", 1⟩] ∧
    strCount "aaaa" "aa" = 2 := by
  refine ⟨fun t pat hp => strCount_pos_iff t pat hp, ?_, by decide, by decide⟩
  intro rb net kws seeds dmax pmax r hr
  have h := (searchRun_explained rb net kws dmax pmax (seeds.map fun u => (u, 0)) [] [] []
    (by intro r2; simp [recordExplained]) r).mp hr
  obtain ⟨hk, hc, d, hmem, doc, hgp, hcnt⟩ := h
  exact ⟨hc, doc, hgp, hcnt⟩

/-- Witness for C10: the positivity criterion applied to the embedded
occurrence of cat inside category, and the count soundness applied to the
record of the concrete run. -/
theorem c10_witness :
    (0 < strCount "category" "cat" ↔
      ∃ l1 l2, ("category" : String).data = l1 ++ ("cat" : String).data ++ l2) ∧
    (0 < (1 : Nat) ∧
      ∃ doc, get_page true c10net "https://x.test" = some doc ∧
        (1 : Nat) = strCount (pyLower (docTextSpace doc)) (pyLower "cat")) :=
  ⟨c10_substring_count.1 "category" "cat" (by decide),
   c10_substring_count.2.1 true c10net ["cat"] ["https://x.test"] 0 30
     ⟨"https://x.test", "cat", 1⟩ (by decide)⟩
